import Mathlib

/-!
Verification of the multi-panel atlas plotting pipeline of `ggseg_py`
(`src/ggseg_py/plotting_utils.py`): color resolution (`_prepare_coloring`),
view selection and panel rendering (`_plot_views`), the multi-panel driver
(`_plot_multi`), and the three public presets (`plot_view`, `plot_aseg`,
`plot_surface`).

The embedding models pandas/matplotlib values with rationals: a data cell is
numeric, a string category, or missing (NaN); a colormap is an abstract
function from a fraction in [0,1] to an RGBA quadruple; the matplotlib
`Normalize` and `TwoSlopeNorm` classes are modelled by `Norm` with their
documented call semantics (a degenerate `Normalize` with `vmin == vmax` fills
the output with 0; `TwoSlopeNorm` is `np.interp` over
`[vmin, vcenter, vmax] -> [0, 0.5, 1]`, clamped).  Fallible operations are
modelled with `Except`: DataFrame column access (`gdf[...]` raising
`KeyError`), and the categorical draw call `sel.plot(color=sel_colors)`,
where matplotlib's `to_rgba` raises `ValueError` on the NaN entries that
`Series.map` produces for values absent from the color table (geopandas
skips missing values only on the `column=` path used for numeric data, not
on the explicit-`color` path).
-/

namespace GgsegPy

/-- An RGBA color, each channel a rational (matplotlib uses floats in [0,1]). -/
abbrev RGBA := ℚ × ℚ × ℚ × ℚ

/-- A resolved matplotlib colormap: samples a color at a fraction. -/
abbrev Cmap := ℚ → RGBA

/-- The fixed neutral mask fill `'#A1A1A1'` used by `_plot_views`. -/
def maskGray : RGBA := (161/255, 161/255, 161/255, 1)

/-- One cell of a data column: a numeric value, a string category, or
missing (pandas `NaN`). -/
inductive DVal
  | num (q : ℚ)
  | str (s : String)
  | na
deriving DecidableEq, Repr

/-- A data column as extracted from the DataFrame: the pandas dtype flag
(`pd.api.types.is_numeric_dtype`) plus the cells. -/
structure DataCol where
  isNumericDtype : Bool
  cells : List DVal
deriving DecidableEq, Repr

/-- `Series.dropna`: drop the missing cells. -/
def dropna (cells : List DVal) : List DVal :=
  cells.filter (fun c => c ≠ DVal.na)

/-- The numeric values of a cell list. -/
def numCells (cells : List DVal) : List ℚ :=
  cells.filterMap fun c => match c with | .num q => some q | _ => none

/-- The string values of a cell list. -/
def strCells (cells : List DVal) : List String :=
  cells.filterMap fun c => match c with | .str s => some s | _ => none

/-- `Series.min` on the already-dropna'd values: `none` models the `NaN`
returned by pandas on an empty series. -/
def listMin : List ℚ → Option ℚ
  | [] => none
  | x :: xs =>
    match listMin xs with
    | none => some x
    | some m => some (min x m)

/-- `Series.max`, `none` modelling `NaN` on an empty series. -/
def listMax : List ℚ → Option ℚ
  | [] => none
  | x :: xs =>
    match listMax xs with
    | none => some x
    | some m => some (max x m)

/-- `vmin if vmin is not None else vals.min()` (values already dropna'd). -/
def resolvedLow (col : DataCol) (vmin : Option ℚ) : Option ℚ :=
  match vmin with
  | some v => some v
  | none => listMin (numCells (dropna col.cells))

/-- `vmax if vmax is not None else vals.max()`. -/
def resolvedHigh (col : DataCol) (vmax : Option ℚ) : Option ℚ :=
  match vmax with
  | some v => some v
  | none => listMax (numCells (dropna col.cells))

/-- A matplotlib normalization object as built by `_prepare_coloring`:
`TwoSlopeNorm(vmin, vcenter, vmax)`, `Normalize(vmin, vmax)`, or the
degenerate `Normalize(nan, nan)` arising when a numeric column is empty
after `dropna` and no explicit bound was supplied. -/
inductive Norm
  | twoSlope (vmin vcenter vmax : ℚ)
  | linear (vmin vmax : ℚ)
  | nanNorm
deriving DecidableEq, Repr

/-- Calling a normalization on a value, per matplotlib semantics:
`Normalize.__call__` fills 0 when `vmin == vmax` and is otherwise the
unclipped linear map; `TwoSlopeNorm.__call__` is
`np.interp(x, [vmin, vcenter, vmax], [0, 0.5, 1])` (clamped at the ends);
`Normalize(nan, nan)` yields `NaN` for every input, modelled `none`. -/
def Norm.apply : Norm → ℚ → Option ℚ
  | .nanNorm, _ => none
  | .linear l h, x =>
    if l = h then some 0 else some ((x - l) / (h - l))
  | .twoSlope l c h, x =>
    some (if x ≤ l then 0
          else if x ≤ c then (x - l) / (c - l) * (1/2)
          else if x ≤ h then 1/2 + (x - c) / (h - c) * (1/2)
          else 1)

/-- The norm built by the numeric branch of `_prepare_coloring` from the
resolved bounds (`none` = pandas `NaN`, whose comparisons are all false). -/
def mkNorm (low high : Option ℚ) : Norm :=
  match low, high with
  | some l, some h =>
    if l < 0 ∧ 0 < h then
      Norm.twoSlope (-(max |l| |h|)) 0 (max |l| |h|)
    else
      Norm.linear l h
  | _, _ => Norm.nanNorm

/-- `pd.Categorical(vals).categories`: the distinct values in sorted
(lexicographic) order, not appearance order. -/
def sortedDistinct (xs : List String) : List String :=
  List.insertionSort (fun a b => a ≤ b) xs.dedup

/-- `colors = [cmap(i / max(n - 1, 1)) for i in range(n)]` zipped with the
categories: the category-to-color table of the categorical branch. -/
def categoryTable (cmap : Cmap) (cats : List String) : List (String × RGBA) :=
  ((List.range cats.length).zip cats).map
    fun p => (p.2, cmap ((p.1 : ℚ) / ((max (cats.length - 1) 1 : ℕ) : ℚ)))

/-- The result of `_prepare_coloring`: a shared numeric normalization or a
category-to-color table. -/
inductive ColoringRes
  | numeric (norm : Norm)
  | categorical (table : List (String × RGBA))
deriving DecidableEq, Repr

/-- `_prepare_coloring(data, cmap, vmin, vmax)`: dropna, classify by dtype,
then build either the (possibly diverging) normalization or the sorted
category table. -/
def prepareColoring (cmap : Cmap) (col : DataCol) (vmin vmax : Option ℚ) :
    ColoringRes :=
  if col.isNumericDtype then
    ColoringRes.numeric (mkNorm (resolvedLow col vmin) (resolvedHigh col vmax))
  else
    ColoringRes.categorical
      (categoryTable cmap (sortedDistinct (strCells (dropna col.cells))))

/-- One atlas row: `side`, `hemi`, `region` attributes plus the cell of the
requested coloring column. -/
structure Record where
  side : String
  hemi : String
  region : String
  val : DVal
deriving DecidableEq, Repr

/-- The input GeoDataFrame restricted to what the pipeline reads: the rows,
plus flags recording which columns exist (missing-column access raises). -/
structure Table where
  hasSide : Bool
  hasHemi : Bool
  hasRegion : Bool
  hasDataCol : Bool
  dtypeNumeric : Bool
  rows : List Record
deriving DecidableEq, Repr

/-- `gdf[column]` in `_plot_multi`: `KeyError` when the column is absent. -/
def getCol (t : Table) : Except String DataCol :=
  if t.hasDataCol then
    Except.ok ⟨t.dtypeNumeric, t.rows.map (fun r => r.val)⟩
  else
    Except.error "KeyError: value column"

/-- A view descriptor's hemisphere filter: a scalar (`==`) or a
list/tuple (`.isin`). -/
inductive HemiSpec
  | scalar (h : String)
  | multi (hs : List String)
deriving DecidableEq, Repr

/-- A view descriptor (`{'side': ..., 'hemi': ...}`). -/
structure View where
  side : String
  hemi : HemiSpec
deriving DecidableEq, Repr

/-- Lines 143-145 of `_plot_views`: filter by `side` equality, then by the
hemi filter (membership for list/tuple, equality for a scalar).  Accessing
a missing `side` or `hemi` column raises. -/
def selectView (t : Table) (v : View) : Except String (List Record) := do
  if !t.hasSide then throw "KeyError: side"
  let sel := t.rows.filter (fun r => r.side == v.side)
  if !t.hasHemi then throw "KeyError: hemi"
  match v.hemi with
  | .multi hs => pure (sel.filter (fun r => hs.contains r.hemi))
  | .scalar h => pure (sel.filter (fun r => r.hemi == h))

/-- Line 161: `gdf[(gdf['side'] == view['side']) & (gdf.get('region') ==
mask_region)]`.  When the `region` column is absent, `gdf.get('region')` is
`None`, `None == mask_region` is `False`, and the filter matches no rows. -/
def maskSelect (t : Table) (side maskRegion : String) : List Record :=
  if t.hasRegion then
    t.rows.filter (fun r => r.side == side && r.region == maskRegion)
  else
    []

/-- Whether a draw call belongs to the normal fill pass or the mask overlay
redraw. -/
inductive Phase
  | normal
  | mask
deriving DecidableEq, Repr

/-- One polygon-fill draw call issued to the drawing backend: which record,
in which pass, with which fill (`none` = unfilled/skipped, as geopandas
renders missing or unmapped values). -/
structure DrawOp where
  phase : Phase
  row : Record
  fill : Option RGBA
deriving DecidableEq, Repr

/-- The fill of one record in the normal pass: numeric values go through the
shared norm and colormap (`sel.plot(column=..., cmap=..., norm=...)`);
categorical values through the `Series.map(color_map)` lookup, where values
absent from the table become `NaN` and render unfilled; missing values
render unfilled. -/
def coloringFill (cmap : Cmap) : ColoringRes → DVal → Option RGBA
  | .numeric n, .num q => (n.apply q).map cmap
  | .numeric _, _ => none
  | .categorical tbl, .str s => tbl.lookup s
  | .categorical _, _ => none

/-- The mask overlay draw calls of one panel (lines 160-162): skipped when
`mask_region` is `None` or falsy (the empty string); otherwise every
mask-selected record is redrawn with the fixed gray fill. -/
def maskOps (t : Table) (maskRegion : Option String) (v : View) : List DrawOp :=
  match maskRegion with
  | none => []
  | some m =>
    if m = "" then []
    else (maskSelect t v.side m).map fun r => ⟨Phase.mask, r, some maskGray⟩

/-- The draw calls of one panel's normal fill pass: one per selected
record, filled via the shared coloring. -/
def normalOps (cmap : Cmap) (coloring : ColoringRes) (sel : List Record) :
    List DrawOp :=
  sel.map fun r => ⟨Phase.normal, r, coloringFill cmap coloring r.val⟩

/-- Lines 146-159 of `_plot_views`, the normal drawing of one panel.
Numeric: `sel.plot(column=..., cmap=..., norm=...)` draws, geopandas
skipping rows with missing values (no fill).  Categorical:
`sel_colors = sel[column].map(color_map)` is passed as an explicit color
array to `sel.plot(color=sel_colors, ...)`; matplotlib's `to_rgba` rejects
the NaN entries produced for unmapped values and raises
`ValueError: Invalid RGBA argument: nan`, aborting the figure. -/
def renderNormal (cmap : Cmap) (coloring : ColoringRes) (sel : List Record) :
    Except String (List DrawOp) :=
  match coloring with
  | ColoringRes.numeric _ => Except.ok (normalOps cmap coloring sel)
  | ColoringRes.categorical _ =>
    if (normalOps cmap coloring sel).all (fun o => o.fill.isSome) then
      Except.ok (normalOps cmap coloring sel)
    else
      Except.error "ValueError: Invalid RGBA argument: nan"

/-- The draw calls of one panel, in issue order: the normal fill pass over
the selected subset (which can raise), then the mask overlay on top. -/
def renderPanel (t : Table) (cmap : Cmap) (coloring : ColoringRes)
    (maskRegion : Option String) (v : View) (sel : List Record) :
    Except String (List DrawOp) := do
  let ops ← renderNormal cmap coloring sel
  Except.ok (ops ++ maskOps t maskRegion v)

/-- `_plot_views`: for each view, select the subset and render the panel,
all panels sharing the one resolved coloring. -/
def plotViews (t : Table) (cmap : Cmap) (coloring : ColoringRes)
    (maskRegion : Option String) : List View → Except String (List (List DrawOp))
  | [] => Except.ok []
  | v :: vs => do
    let sel ← selectView t v
    let panel ← renderPanel t cmap coloring maskRegion v sel
    let rest ← plotViews t cmap coloring maskRegion vs
    pure (panel :: rest)

/-- The finished figure: one draw-op list per view (row-major), plus the
shared colorbar/legend artifact when requested. -/
structure Figure where
  panels : List (List DrawOp)
  cbar : Option ColoringRes
deriving DecidableEq, Repr

/-- `_plot_multi`: resolve the coloring once from the full column, then
render every view with it, then optionally attach the shared artifact. -/
def plotMulti (t : Table) (views : List View) (cmap : Cmap)
    (maskRegion : Option String) (vmin vmax : Option ℚ) (showCbar : Bool) :
    Except String Figure := do
  let col ← getCol t
  let coloring := prepareColoring cmap col vmin vmax
  let panels ← plotViews t cmap coloring maskRegion views
  pure ⟨panels, if showCbar then some coloring else none⟩

/-- The two subcortical views of `plot_aseg`. -/
def asegViews : List View :=
  [⟨"coronal", HemiSpec.multi ["left", "right"]⟩,
   ⟨"sagittal", HemiSpec.scalar "midline"⟩]

/-- The four cortical views of `plot_surface`. -/
def surfaceViews : List View :=
  [⟨"lateral", HemiSpec.scalar "left"⟩,
   ⟨"lateral", HemiSpec.scalar "right"⟩,
   ⟨"medial", HemiSpec.scalar "left"⟩,
   ⟨"medial", HemiSpec.scalar "right"⟩]

/-- `plot_aseg`: 1x2 subcortical preset, mask region defaulted to `'???'`
by the caller. -/
def plot_aseg (t : Table) (cmap : Cmap) (maskRegion : String)
    (vmin vmax : Option ℚ) (showCbar : Bool) : Except String Figure :=
  plotMulti t asegViews cmap (some maskRegion) vmin vmax showCbar

/-- `plot_surface`: 2x2 cortical preset, no mask. -/
def plot_surface (t : Table) (cmap : Cmap) (vmin vmax : Option ℚ)
    (showCbar : Bool) : Except String Figure :=
  plotMulti t surfaceViews cmap none vmin vmax showCbar

/-- `plot_view`: single descriptor, no mask. -/
def plot_view (t : Table) (side hemi : String) (cmap : Cmap)
    (vmin vmax : Option ℚ) (showCbar : Bool) : Except String Figure :=
  plotMulti t [⟨side, HemiSpec.scalar hemi⟩] cmap none vmin vmax showCbar

/-- The fill the backend leaves visible for a record in a panel: the fill of
the last draw call touching it (later draws paint on top). -/
def lastFillFor (ops : List DrawOp) (r : Record) : Option (Option RGBA) :=
  ((ops.filter (fun o => o.row = r)).map (fun o => o.fill)).getLast?

/-- The selected subset of a view when the schema is intact (the pure
content of `selectView` on a table with `side` and `hemi` columns). -/
def selectViewPure (t : Table) (v : View) : List Record :=
  match v.hemi with
  | .multi hs => (t.rows.filter (fun r => r.side == v.side)).filter
      (fun r => hs.contains r.hemi)
  | .scalar h => (t.rows.filter (fun r => r.side == v.side)).filter
      (fun r => r.hemi == h)

/-- A concrete grayscale palette used to exercise the pipeline. -/
def grayscale : Cmap := fun t => (t, t, t, 1)

/-- Sample subcortical rows: two coronal records and one sagittal record,
with a mask-labeled (`'???'`) record carrying a data value. -/
def sampleRows : List Record :=
  [⟨"coronal", "left", "???", DVal.num (-2)⟩,
   ⟨"coronal", "right", "amygdala", DVal.num 2⟩,
   ⟨"sagittal", "midline", "brainstem", DVal.num 2⟩]

/-- A schema-complete sample table with a numeric data column. -/
def sampleTable : Table := ⟨true, true, true, true, true, sampleRows⟩

/-- The sample table without a `region` column. -/
def noRegionTable : Table := ⟨true, true, false, true, true, sampleRows⟩

/-- The sample table without the requested coloring column. -/
def noColTable : Table := ⟨true, true, true, false, true, sampleRows⟩

/-- A schema-complete sample table with a categorical data column. -/
def catTable : Table :=
  ⟨true, true, true, true, false,
   [⟨"lateral", "left", "bankssts", DVal.str "beta"⟩,
    ⟨"lateral", "left", "cuneus", DVal.str "alpha"⟩]⟩

/-- The figure `plot_aseg` produces on `noRegionTable` with the grayscale
palette: identical panels to the masked run but with no mask overlay. -/
def figNoRegion : Figure :=
  ⟨[[⟨Phase.normal, ⟨"coronal", "left", "???", DVal.num (-2)⟩,
      some (0, 0, 0, 1)⟩,
     ⟨Phase.normal, ⟨"coronal", "right", "amygdala", DVal.num 2⟩,
      some (1, 1, 1, 1)⟩],
    [⟨Phase.normal, ⟨"sagittal", "midline", "brainstem", DVal.num 2⟩,
      some (1, 1, 1, 1)⟩]],
   some (ColoringRes.numeric (Norm.twoSlope (-2) 0 2))⟩

/-- The figure `plot_aseg` produces on `sampleTable` with the grayscale
palette and mask region `'???'`: the shared diverging norm is
`TwoSlopeNorm(-2, 0, 2)`, the `'???'` record is redrawn gray on top. -/
def figSample : Figure :=
  ⟨[[⟨Phase.normal, ⟨"coronal", "left", "???", DVal.num (-2)⟩,
      some (0, 0, 0, 1)⟩,
     ⟨Phase.normal, ⟨"coronal", "right", "amygdala", DVal.num 2⟩,
      some (1, 1, 1, 1)⟩,
     ⟨Phase.mask, ⟨"coronal", "left", "???", DVal.num (-2)⟩, some maskGray⟩],
    [⟨Phase.normal, ⟨"sagittal", "midline", "brainstem", DVal.num 2⟩,
      some (1, 1, 1, 1)⟩]],
   some (ColoringRes.numeric (Norm.twoSlope (-2) 0 2))⟩

/-! ### Helper lemmas -/

/-- On `[-lim, lim]` the symmetric two-slope norm is the single linear map
`x ↦ 1/2 + x/(2*lim)`: both slopes coincide when the center sits midway. -/
lemma twoSlope_symm_apply (lim x : ℚ) (hlim : 0 < lim) (h1 : -lim ≤ x)
    (h2 : x ≤ lim) :
    (Norm.twoSlope (-lim) 0 lim).apply x = some (1/2 + x / (2 * lim)) := by
  have hne : lim ≠ 0 := ne_of_gt hlim
  simp only [Norm.apply, Option.some.injEq]
  split_ifs with ha hb
  · have hx : x = -lim := le_antisymm ha h1
    rw [hx]; field_simp
  · field_simp; ring_nf
  · rw [sub_zero, sub_zero, div_mul_eq_mul_div, mul_one_div, div_div]

/-! ### C2: diverging normalization for sign-spanning numeric columns -/

/-- C2: for a numeric column whose resolved bounds satisfy `low < 0 < high`,
`_prepare_coloring` builds the symmetric `TwoSlopeNorm` with span
`max(|low|, |high|)` on both sides of 0; that norm maps 0 to 1/2 and maps
`x` and `-x` to values equidistant from 1/2 for every `x` in range. -/
theorem C2_diverging_symmetric (cmap : Cmap) (col : DataCol)
    (vmin vmax : Option ℚ) (l h : ℚ) (hdt : col.isNumericDtype = true)
    (hlow : resolvedLow col vmin = some l)
    (hhigh : resolvedHigh col vmax = some h)
    (hneg : l < 0) (hpos : 0 < h) :
    prepareColoring cmap col vmin vmax
      = ColoringRes.numeric
          (Norm.twoSlope (-(max |l| |h|)) 0 (max |l| |h|)) ∧
    (Norm.twoSlope (-(max |l| |h|)) 0 (max |l| |h|)).apply 0 = some (1/2) ∧
    ∀ x : ℚ, 0 ≤ x → x ≤ max |l| |h| →
      (Norm.twoSlope (-(max |l| |h|)) 0 (max |l| |h|)).apply x
        = some (1/2 + x / (2 * max |l| |h|)) ∧
      (Norm.twoSlope (-(max |l| |h|)) 0 (max |l| |h|)).apply (-x)
        = some (1/2 - x / (2 * max |l| |h|)) := by
  have hlim : 0 < max |l| |h| :=
    lt_of_lt_of_le (abs_pos.mpr (ne_of_lt hneg)) (le_max_left _ _)
  refine ⟨?_, ?_, ?_⟩
  · simp only [prepareColoring, hdt, if_true, hlow, hhigh, mkNorm]
    rw [if_pos ⟨hneg, hpos⟩]
  · rw [twoSlope_symm_apply _ _ hlim (by linarith) (by linarith)]
    norm_num
  · intro x hx0 hxlim
    constructor
    · exact twoSlope_symm_apply _ _ hlim (by linarith) hxlim
    · rw [twoSlope_symm_apply _ _ hlim (by linarith) (by linarith)]
      congr 1
      ring
/-- Witness for C2 on the column `[-2, 1]`: bounds resolve to `-2` and `1`,
the norm is `TwoSlopeNorm(-2, 0, 2)`, and `1` and `-1` map to `3/4` and
`1/4`. -/
theorem C2_diverging_symmetric_witness :
    prepareColoring grayscale ⟨true, [DVal.num (-2), DVal.num 1]⟩ none none
      = ColoringRes.numeric
          (Norm.twoSlope (-(max |(-2 : ℚ)| |(1 : ℚ)|)) 0
            (max |(-2 : ℚ)| |(1 : ℚ)|)) ∧
    (Norm.twoSlope (-(max |(-2 : ℚ)| |(1 : ℚ)|)) 0
        (max |(-2 : ℚ)| |(1 : ℚ)|)).apply 0 = some (1/2) ∧
    ((Norm.twoSlope (-(max |(-2 : ℚ)| |(1 : ℚ)|)) 0
        (max |(-2 : ℚ)| |(1 : ℚ)|)).apply 1
      = some (1/2 + 1 / (2 * max |(-2 : ℚ)| |(1 : ℚ)|)) ∧
     (Norm.twoSlope (-(max |(-2 : ℚ)| |(1 : ℚ)|)) 0
        (max |(-2 : ℚ)| |(1 : ℚ)|)).apply (-1)
      = some (1/2 - 1 / (2 * max |(-2 : ℚ)| |(1 : ℚ)|))) := by
  obtain ⟨h1, h2, h3⟩ :=
    C2_diverging_symmetric grayscale ⟨true, [DVal.num (-2), DVal.num 1]⟩
      none none (-2) 1 rfl (by decide) (by decide) (by norm_num) (by norm_num)
  exact ⟨h1, h2, h3 1 (by norm_num) (by norm_num)⟩

/-! ### C3: plain linear normalization for single-sign numeric columns -/

/-- C3: for a numeric column whose resolved bounds do not span 0 (and are
non-degenerate), `_prepare_coloring` builds the plain `Normalize(low, high)`
linear map, which sends `low` to 0 and `high` to 1. -/
theorem C3_linear_minmax (cmap : Cmap) (col : DataCol)
    (vmin vmax : Option ℚ) (l h : ℚ) (hdt : col.isNumericDtype = true)
    (hlow : resolvedLow col vmin = some l)
    (hhigh : resolvedHigh col vmax = some h)
    (hsign : 0 ≤ l ∨ h ≤ 0) (hlt : l < h) :
    prepareColoring cmap col vmin vmax
      = ColoringRes.numeric (Norm.linear l h) ∧
    (Norm.linear l h).apply l = some 0 ∧
    (Norm.linear l h).apply h = some 1 := by
  have hne : l ≠ h := ne_of_lt hlt
  have hsub : h - l ≠ 0 := sub_ne_zero.mpr (ne_of_gt hlt)
  refine ⟨?_, ?_, ?_⟩
  · have hcond : ¬(l < 0 ∧ 0 < h) := by
      rcases hsign with h0 | h0
      · exact fun hc => absurd hc.1 (not_lt.mpr h0)
      · exact fun hc => absurd hc.2 (not_lt.mpr h0)
    simp only [prepareColoring, hdt, if_true, hlow, hhigh, mkNorm]
    rw [if_neg hcond]
  · simp only [Norm.apply, if_neg hne, Option.some.injEq]
    simp
  · simp only [Norm.apply, if_neg hne, Option.some.injEq]
    exact div_self hsub
/-- Witness for C3 on the column `[1, 3]`: bounds resolve to `1` and `3`,
the norm is `Normalize(1, 3)`, with `1 ↦ 0` and `3 ↦ 1`. -/
theorem C3_linear_minmax_witness :
    prepareColoring grayscale ⟨true, [DVal.num 1, DVal.num 3]⟩ none none
      = ColoringRes.numeric (Norm.linear 1 3) ∧
    (Norm.linear 1 3).apply 1 = some 0 ∧
    (Norm.linear 1 3).apply 3 = some 1 :=
  C3_linear_minmax grayscale ⟨true, [DVal.num 1, DVal.num 3]⟩ none none 1 3
    rfl (by decide) (by decide) (Or.inl (by norm_num)) (by norm_num)

/-! ### C4: degenerate numeric range (corrected) -/

/-- C4 counterexample: on the numeric column `[5, 5]` the resolver builds
the degenerate `Normalize(5, 5)` without raising, but matplotlib's
degenerate `Normalize` fills 0, so the value 7 normalizes to 0, not to the
palette midpoint 1/2 the claim states. -/
theorem C4_degenerate_counterexample :
    prepareColoring grayscale ⟨true, [DVal.num 5, DVal.num 5]⟩ none none
      = ColoringRes.numeric (Norm.linear 5 5) ∧
    (Norm.linear 5 5).apply 7 = some 0 ∧
    (Norm.linear 5 5).apply 7 ≠ some (1/2) := by
  refine ⟨by decide, by decide, ?_⟩
  norm_num [Norm.apply]

/-- C4 amended: a degenerate resolved range never raises; when both bounds
resolve to the same value the zero-width `Normalize` maps every value to 0
(matplotlib's degenerate-`Normalize` convention), and when a bound fails to
resolve (column all-missing after dropna and no explicit bound) the
`Normalize(nan, ...)` object maps every value to NaN, rendered as the
colormap's bad/unfilled color — in neither case the palette midpoint. -/
theorem C4_degenerate_amended (cmap : Cmap) (col : DataCol)
    (vmin vmax : Option ℚ) (hdt : col.isNumericDtype = true) :
    (∀ l : ℚ, resolvedLow col vmin = some l →
      resolvedHigh col vmax = some l →
      prepareColoring cmap col vmin vmax
        = ColoringRes.numeric (Norm.linear l l) ∧
      ∀ x : ℚ, (Norm.linear l l).apply x = some 0) ∧
    (resolvedLow col vmin = none ∨ resolvedHigh col vmax = none →
      prepareColoring cmap col vmin vmax
        = ColoringRes.numeric Norm.nanNorm ∧
      ∀ x : ℚ, Norm.nanNorm.apply x = none) := by
  constructor
  · intro l hlow hhigh
    constructor
    · have hcond : ¬(l < 0 ∧ 0 < l) := fun hc => absurd hc.2 (not_lt.mpr hc.1.le)
      simp only [prepareColoring, hdt, if_true, hlow, hhigh, mkNorm]
      rw [if_neg hcond]
    · intro x
      simp [Norm.apply]
  · intro hmiss
    constructor
    · rcases hmiss with hm | hm
      · simp only [prepareColoring, hdt, if_true, hm]
        cases hother : resolvedHigh col vmax <;> rfl
      · simp only [prepareColoring, hdt, if_true, hm]
        cases hother : resolvedLow col vmin <;> rfl
    · intro x
      rfl
/-- Witness for C4 amended, on the constant column `[5, 5]` (both bounds
resolve to 5; value 7 normalizes to 0) and on the all-missing column `[NaN]`
(no bound resolves; value 7 normalizes to NaN/`none`). -/
theorem C4_degenerate_amended_witness :
    (prepareColoring grayscale ⟨true, [DVal.num 5, DVal.num 5]⟩ none none
        = ColoringRes.numeric (Norm.linear 5 5) ∧
      (Norm.linear 5 5).apply 7 = some 0) ∧
    (prepareColoring grayscale ⟨true, [DVal.na]⟩ none none
        = ColoringRes.numeric Norm.nanNorm ∧
      Norm.nanNorm.apply 7 = none) := by
  constructor
  · obtain ⟨h1, h2⟩ :=
      (C4_degenerate_amended grayscale ⟨true, [DVal.num 5, DVal.num 5]⟩
        none none rfl).1 5 (by decide) (by decide)
    exact ⟨h1, h2 7⟩
  · obtain ⟨h1, h2⟩ :=
      (C4_degenerate_amended grayscale ⟨true, [DVal.na]⟩
        none none rfl).2 (Or.inl (by decide))
    exact ⟨h1, h2 7⟩

/-! ### C5: categorical branch -/

/-- Entry `i` of the category table pairs category `i` (in sorted order)
with the palette sampled at `i / max(n-1, 1)`. -/
lemma categoryTable_getElem (cmap : Cmap) (cats : List String) (i : ℕ)
    (hi : i < cats.length) :
    (categoryTable cmap cats)[i]?
      = some (cats[i],
          cmap ((i : ℚ) / ((max (cats.length - 1) 1 : ℕ) : ℚ))) := by
  simp [categoryTable, List.getElem?_zip_eq_some, List.getElem?_range hi,
    List.getElem?_eq_getElem hi]
  exact ⟨i, cats[i], ⟨rfl, rfl⟩, rfl, rfl⟩

/-- C5: for a non-numeric column, `_prepare_coloring` enumerates the
distinct non-missing values in sorted order (sorted, duplicate-free, and
containing exactly the non-missing values), samples the palette at
`i/(n-1)` (at 0 when `n == 1`, via `max(n-1, 1)`), and the resulting table
is a function of the sorted distinct category set and the palette alone. -/
theorem C5_categorical_table (cmap : Cmap) (col : DataCol)
    (vmin vmax : Option ℚ) (hdt : col.isNumericDtype = false) :
    prepareColoring cmap col vmin vmax
      = ColoringRes.categorical
          (categoryTable cmap (sortedDistinct (strCells (dropna col.cells)))) ∧
    (∀ xs : List String,
        List.Sorted (fun a b => a ≤ b) (sortedDistinct xs) ∧
        (sortedDistinct xs).Nodup ∧
        ∀ s, s ∈ sortedDistinct xs ↔ s ∈ xs) ∧
    (∀ (cats : List String) (i : ℕ) (hi : i < cats.length),
        (categoryTable cmap cats)[i]?
          = some (cats[i],
              cmap ((i : ℚ) / ((max (cats.length - 1) 1 : ℕ) : ℚ)))) ∧
    (∀ col' : DataCol, col'.isNumericDtype = false →
        sortedDistinct (strCells (dropna col'.cells))
          = sortedDistinct (strCells (dropna col.cells)) →
        prepareColoring cmap col' vmin vmax
          = prepareColoring cmap col vmin vmax) := by
  refine ⟨?_, ?_, ?_, ?_⟩
  · simp [prepareColoring, hdt]
  · intro xs
    refine ⟨List.sorted_insertionSort _ _, ?_, ?_⟩
    · exact ((List.perm_insertionSort _ _).nodup_iff).mpr xs.nodup_dedup
    · intro s
      simp only [sortedDistinct]
      rw [List.Perm.mem_iff (List.perm_insertionSort _ _), List.mem_dedup]
  · exact fun cats i hi => categoryTable_getElem cmap cats i hi
  · intro col' hdt' hsame
    simp [prepareColoring, hdt, hdt', hsame]
/-- Witness for C5 on the column `["beta", "alpha", "beta", NaN]`: the
categories come out sorted as `["alpha", "beta"]` with palette samples at
0 and 1. -/
theorem C5_categorical_table_witness :
    prepareColoring grayscale
        ⟨false, [DVal.str "beta", DVal.str "alpha", DVal.str "beta", DVal.na]⟩
        none none
      = ColoringRes.categorical
          (categoryTable grayscale
            (sortedDistinct (strCells (dropna
              [DVal.str "beta", DVal.str "alpha", DVal.str "beta",
               DVal.na])))) ∧
    sortedDistinct ["beta", "alpha", "beta"] = ["alpha", "beta"] ∧
    categoryTable grayscale ["alpha", "beta"]
      = [("alpha", (0, 0, 0, 1)), ("beta", (1, 1, 1, 1))] := by
  refine ⟨?_,
    by simp [sortedDistinct, List.insertionSort, List.orderedInsert,
         List.dedup]; decide,
    by norm_num [categoryTable, grayscale, List.range_succ]⟩
  exact (C5_categorical_table grayscale
    ⟨false, [DVal.str "beta", DVal.str "alpha", DVal.str "beta", DVal.na]⟩
    none none rfl).1

/-! ### Pipeline lemmas -/

lemma exceptBind_ok {α β ε : Type} (a : α) (f : α → Except ε β) :
    (Except.ok a >>= f) = f a := rfl

lemma exceptBind_err {α β ε : Type} (e : ε) (f : α → Except ε β) :
    ((Except.error e : Except ε α) >>= f) = Except.error e := rfl

/-- With both schema columns present, `selectView` succeeds with the pure
filter result. -/
lemma selectView_ok (t : Table) (v : View) (hside : t.hasSide = true)
    (hhemi : t.hasHemi = true) :
    selectView t v = Except.ok (selectViewPure t v) := by
  unfold selectView selectViewPure
  rw [hside, hhemi]
  cases v.hemi <;> rfl

/-- A missing `side` column makes `selectView` raise. -/
lemma selectView_err_side (t : Table) (v : View) (hside : t.hasSide = false) :
    selectView t v = Except.error "KeyError: side" := by
  unfold selectView
  rw [hside]
  rfl

/-- A missing `hemi` column makes `selectView` raise. -/
lemma selectView_err_hemi (t : Table) (v : View) (hside : t.hasSide = true)
    (hhemi : t.hasHemi = false) :
    selectView t v = Except.error "KeyError: hemi" := by
  unfold selectView
  rw [hside, hhemi]
  cases v.hemi <;> rfl

/-- A successful selection presupposes both schema columns. -/
lemma selectView_ok_schema (t : Table) (v : View) (sel : List Record)
    (h : selectView t v = Except.ok sel) :
    t.hasSide = true ∧ t.hasHemi = true := by
  cases hs : t.hasSide
  · rw [selectView_err_side t v hs] at h
    exact absurd h (by simp)
  · cases hh : t.hasHemi
    · rw [selectView_err_hemi t v hs hh] at h
      exact absurd h (by simp)
    · exact ⟨rfl, rfl⟩

/-- A successful normal pass always carries the shared-coloring fills. -/
lemma renderNormal_ok_inv (cmap : Cmap) (coloring : ColoringRes)
    (sel : List Record) (ops : List DrawOp)
    (h : renderNormal cmap coloring sel = Except.ok ops) :
    ops = normalOps cmap coloring sel := by
  unfold renderNormal at h
  cases coloring with
  | numeric n =>
    have h2 : Except.ok (normalOps cmap (ColoringRes.numeric n) sel)
        = Except.ok ops := h
    injection h2 with h2
    exact h2.symm
  | categorical tbl =>
    by_cases hall : (normalOps cmap (ColoringRes.categorical tbl) sel).all
        (fun o => o.fill.isSome)
    · rw [if_pos hall] at h
      injection h with h
      exact h.symm
    · rw [if_neg hall] at h
      exact absurd h (by simp)

/-- On a numeric coloring the normal pass never raises. -/
lemma renderPanel_numeric (t : Table) (cmap : Cmap) (n : Norm)
    (mr : Option String) (v : View) (sel : List Record) :
    renderPanel t cmap (ColoringRes.numeric n) mr v sel
      = Except.ok (normalOps cmap (ColoringRes.numeric n) sel
          ++ maskOps t mr v) := rfl

/-- Inverting a successful panel render: the draw calls are the normal
pass followed by the mask overlay. -/
lemma renderPanel_ok_inv (t : Table) (cmap : Cmap) (coloring : ColoringRes)
    (mr : Option String) (v : View) (sel : List Record) (panel : List DrawOp)
    (h : renderPanel t cmap coloring mr v sel = Except.ok panel) :
    panel = normalOps cmap coloring sel ++ maskOps t mr v := by
  unfold renderPanel at h
  cases hrn : renderNormal cmap coloring sel with
  | error e =>
    rw [hrn, exceptBind_err] at h
    exact absurd h (by simp)
  | ok ops =>
    rw [hrn, exceptBind_ok] at h
    have h2 : Except.ok (ops ++ maskOps t mr v) = Except.ok panel := h
    injection h2 with h2
    rw [← h2, renderNormal_ok_inv cmap coloring sel ops hrn]

/-- With intact schema and a numeric coloring, `_plot_views` renders each
view's pure selection with the one shared coloring. -/
lemma plotViews_eqn_numeric (t : Table) (cmap : Cmap) (n : Norm)
    (mr : Option String) (hside : t.hasSide = true)
    (hhemi : t.hasHemi = true) :
    ∀ views : List View,
      plotViews t cmap (ColoringRes.numeric n) mr views
        = Except.ok (views.map fun v =>
            normalOps cmap (ColoringRes.numeric n) (selectViewPure t v)
              ++ maskOps t mr v)
  | [] => rfl
  | v :: vs => by
    simp only [plotViews, selectView_ok t v hside hhemi, exceptBind_ok,
      renderPanel_numeric,
      plotViews_eqn_numeric t cmap n mr hside hhemi vs, List.map]
    rfl

/-- The numeric branch of the resolver builds the norm from the resolved
bounds. -/
lemma prepareColoring_numeric (cmap : Cmap) (col : DataCol)
    (vmin vmax : Option ℚ) (h : col.isNumericDtype = true) :
    prepareColoring cmap col vmin vmax
      = ColoringRes.numeric
          (mkNorm (resolvedLow col vmin) (resolvedHigh col vmax)) := by
  simp [prepareColoring, h]

/-- With intact schema and a numeric data column, `_plot_multi` returns
the figure whose panels all use the single coloring resolved from the full
column. -/
lemma plotMulti_panels (t : Table) (views : List View) (cmap : Cmap)
    (mr : Option String) (vmin vmax : Option ℚ) (sc : Bool)
    (hside : t.hasSide = true) (hhemi : t.hasHemi = true)
    (hcol : t.hasDataCol = true) (hnum : t.dtypeNumeric = true) :
    plotMulti t views cmap mr vmin vmax sc
      = Except.ok
          ⟨views.map fun v =>
             normalOps cmap
               (ColoringRes.numeric (mkNorm
                 (resolvedLow ⟨t.dtypeNumeric, t.rows.map fun r => r.val⟩
                   vmin)
                 (resolvedHigh ⟨t.dtypeNumeric, t.rows.map fun r => r.val⟩
                   vmax)))
               (selectViewPure t v) ++ maskOps t mr v,
           if sc then
             some (ColoringRes.numeric (mkNorm
               (resolvedLow ⟨t.dtypeNumeric, t.rows.map fun r => r.val⟩ vmin)
               (resolvedHigh ⟨t.dtypeNumeric, t.rows.map fun r => r.val⟩
                 vmax)))
           else none⟩ := by
  unfold plotMulti getCol
  rw [hcol]
  simp only [if_true, exceptBind_ok,
    prepareColoring_numeric cmap ⟨t.dtypeNumeric, t.rows.map fun r => r.val⟩
      vmin vmax hnum,
    plotViews_eqn_numeric t cmap _ mr hside hhemi views]
  rfl

/-- Inverting a successful `_plot_multi` run: the column was fetched, the
coloring was resolved once from it, and the panels are the `_plot_views`
output under that one coloring. -/
lemma plotMulti_ok_inv (t : Table) (views : List View) (cmap : Cmap)
    (mr : Option String) (vmin vmax : Option ℚ) (sc : Bool) (fig : Figure)
    (hok : plotMulti t views cmap mr vmin vmax sc = Except.ok fig) :
    ∃ col, getCol t = Except.ok col ∧
      plotViews t cmap (prepareColoring cmap col vmin vmax) mr views
        = Except.ok fig.panels := by
  unfold plotMulti at hok
  cases hcolr : getCol t with
  | error e =>
    rw [hcolr, exceptBind_err] at hok
    exact absurd hok (by simp)
  | ok col =>
    rw [hcolr] at hok
    simp only [exceptBind_ok] at hok
    cases hpv : plotViews t cmap (prepareColoring cmap col vmin vmax) mr views
      with
    | error e =>
      rw [hpv, exceptBind_err] at hok
      exact absurd hok (by simp)
    | ok panels =>
      rw [hpv, exceptBind_ok] at hok
      refine ⟨col, rfl, ?_⟩
      have hok2 : Except.ok
          (⟨panels, if sc then some (prepareColoring cmap col vmin vmax)
            else none⟩ : Figure) = Except.ok fig := hok
      injection hok2 with hfig
      rw [← hfig]
      exact hpv

/-- Every normal-phase draw call of a successful `_plot_views` run fills by
the shared coloring applied to the record's value. -/
lemma plotViews_fill (t : Table) (cmap : Cmap) (coloring : ColoringRes)
    (mr : Option String) :
    ∀ (views : List View) (panels : List (List DrawOp)),
      plotViews t cmap coloring mr views = Except.ok panels →
      ∀ p ∈ panels, ∀ o ∈ p, o.phase = Phase.normal →
        o.fill = coloringFill cmap coloring o.row.val
  | [], panels, hok => by
    have h : Except.ok ([] : List (List DrawOp)) = Except.ok panels := hok
    injection h with h
    subst h
    intro p hp
    exact absurd hp (List.not_mem_nil p)
  | v :: vs, panels, hok => by
    simp only [plotViews] at hok
    cases hsel : selectView t v with
    | error e =>
      rw [hsel, exceptBind_err] at hok
      exact absurd hok (by simp)
    | ok sel =>
      rw [hsel, exceptBind_ok] at hok
      cases hpan : renderPanel t cmap coloring mr v sel with
      | error e =>
        rw [hpan, exceptBind_err] at hok
        exact absurd hok (by simp)
      | ok panel =>
        rw [hpan, exceptBind_ok] at hok
        cases hrest : plotViews t cmap coloring mr vs with
        | error e =>
          rw [hrest, exceptBind_err] at hok
          exact absurd hok (by simp)
        | ok rest =>
          rw [hrest, exceptBind_ok] at hok
          have hok2 : Except.ok (panel :: rest) = Except.ok panels := hok
          injection hok2 with h
          subst h
          intro p hp o ho hph
          rcases List.mem_cons.mp hp with hphead | hptail
          · subst hphead
            rw [renderPanel_ok_inv t cmap coloring mr v sel _ hpan] at ho
            rcases List.mem_append.mp ho with hnorm | hmask
            · unfold normalOps at hnorm
              rcases List.mem_map.mp hnorm with ⟨r, _, hro⟩
              rw [← hro]
            · exfalso
              have hm : o.phase = Phase.mask := by
                cases mr with
                | none => simp [maskOps] at hmask
                | some m =>
                  simp only [maskOps] at hmask
                  by_cases hme : m = ""
                  · rw [if_pos hme] at hmask
                    exact absurd hmask (List.not_mem_nil o)
                  · rw [if_neg hme] at hmask
                    rcases List.mem_map.mp hmask with ⟨r, _, hro⟩
                    rw [← hro]
              rw [hph] at hm
              exact Phase.noConfusion hm
          · exact plotViews_fill t cmap coloring mr vs rest hrest p hptail o
              ho hph

/-! ### C6: view selection -/

/-- C6: with `side` and `hemi` columns present, the selector keeps exactly
the records matching the descriptor's side by equality and its hemi filter
by membership (set-valued) or equality (scalar). -/
theorem C6_view_selection (t : Table) (v : View) (hside : t.hasSide = true)
    (hhemi : t.hasHemi = true) :
    selectView t v = Except.ok (selectViewPure t v) ∧
    ∀ r : Record, r ∈ selectViewPure t v ↔
      r ∈ t.rows ∧ r.side = v.side ∧
        (match v.hemi with
         | .multi hlist => r.hemi ∈ hlist
         | .scalar hval => r.hemi = hval) := by
  refine ⟨selectView_ok t v hside hhemi, ?_⟩
  intro r
  cases hv : v.hemi with
  | multi hlist =>
    simp only [selectViewPure, hv, List.mem_filter, and_assoc]
    simp
  | scalar hval =>
    simp only [selectViewPure, hv, List.mem_filter, and_assoc]
    simp
/-- Witness for C6 on the sample table and the coronal set-valued view:
the selection succeeds and the left-hemisphere coronal record is kept. -/
theorem C6_view_selection_witness :
    selectView sampleTable ⟨"coronal", HemiSpec.multi ["left", "right"]⟩
      = Except.ok (selectViewPure sampleTable
          ⟨"coronal", HemiSpec.multi ["left", "right"]⟩) ∧
    (⟨"coronal", "left", "???", DVal.num (-2)⟩ : Record)
      ∈ selectViewPure sampleTable
          ⟨"coronal", HemiSpec.multi ["left", "right"]⟩ := by
  obtain ⟨h1, h2⟩ := C6_view_selection sampleTable
    ⟨"coronal", HemiSpec.multi ["left", "right"]⟩ rfl rfl
  refine ⟨h1, (h2 ⟨"coronal", "left", "???", DVal.num (-2)⟩).mpr ?_⟩
  exact ⟨by simp [sampleTable, sampleRows], rfl, by simp⟩

/-- Evaluating the subcortical preset on the sample table. -/
lemma plot_aseg_sample_eval :
    plot_aseg sampleTable grayscale "???" none none true
      = Except.ok figSample := by
  simp [figSample, plot_aseg, plotMulti, getCol, sampleTable, sampleRows,
    plotViews, selectView, renderPanel, renderNormal, normalOps,
    prepareColoring, resolvedLow, resolvedHigh, dropna, numCells, listMin,
    listMax, mkNorm, maskOps, maskSelect, coloringFill, Norm.apply,
    grayscale, asegViews, exceptBind_ok, exceptBind_err, List.filter,
    List.lookup, maskGray]
  norm_num

/-! ### C1: one color resolution shared by all panels -/

/-- C1: in any successful `plot_view`, `plot_aseg` or `plot_surface` call,
the coloring is resolved once per figure, so two normal-pass draw calls in
any two panels whose records carry equal column values receive identical
fills. -/
theorem C1_shared_color_resolution
    (t : Table) (side hemi maskRegion : String) (cmap : Cmap)
    (vmin vmax : Option ℚ) (showCbar : Bool) (fig : Figure)
    (hcall :
      plot_view t side hemi cmap vmin vmax showCbar = Except.ok fig ∨
      plot_aseg t cmap maskRegion vmin vmax showCbar = Except.ok fig ∨
      plot_surface t cmap vmin vmax showCbar = Except.ok fig)
    (p1 p2 : List DrawOp) (hp1 : p1 ∈ fig.panels) (hp2 : p2 ∈ fig.panels)
    (o1 o2 : DrawOp) (ho1 : o1 ∈ p1) (ho2 : o2 ∈ p2)
    (hph1 : o1.phase = Phase.normal) (hph2 : o2.phase = Phase.normal)
    (hval : o1.row.val = o2.row.val) :
    o1.fill = o2.fill := by
  have key : ∀ (views : List View) (mr : Option String),
      plotMulti t views cmap mr vmin vmax showCbar = Except.ok fig →
      o1.fill = o2.fill := by
    intro views mr hok
    obtain ⟨col, _, hpv⟩ :=
      plotMulti_ok_inv t views cmap mr vmin vmax showCbar fig hok
    have h1 := plotViews_fill t cmap (prepareColoring cmap col vmin vmax) mr
      views fig.panels hpv p1 hp1 o1 ho1 hph1
    have h2 := plotViews_fill t cmap (prepareColoring cmap col vmin vmax) mr
      views fig.panels hpv p2 hp2 o2 ho2 hph2
    rw [h1, h2, hval]
  rcases hcall with h | h | h
  · exact key _ _ h
  · exact key _ _ h
  · exact key _ _ h
/-- Witness for C1: in the `plot_aseg` figure on the sample table, the
coronal record with value 2 and the sagittal record with value 2 sit in
different panels yet receive the same fill. -/
theorem C1_shared_color_resolution_witness :
    plot_aseg sampleTable grayscale "???" none none true
      = Except.ok figSample ∧
    (⟨Phase.normal, ⟨"coronal", "right", "amygdala", DVal.num 2⟩,
        some (1, 1, 1, 1)⟩ : DrawOp).fill
      = (⟨Phase.normal, ⟨"sagittal", "midline", "brainstem", DVal.num 2⟩,
          some (1, 1, 1, 1)⟩ : DrawOp).fill := by
  have hok : plot_aseg sampleTable grayscale "???" none none true
      = Except.ok figSample := plot_aseg_sample_eval
  refine ⟨hok, ?_⟩
  exact C1_shared_color_resolution sampleTable "coronal" "left" "???"
    grayscale none none true figSample (Or.inr (Or.inl hok))
    [⟨Phase.normal, ⟨"coronal", "left", "???", DVal.num (-2)⟩,
      some (0, 0, 0, 1)⟩,
     ⟨Phase.normal, ⟨"coronal", "right", "amygdala", DVal.num 2⟩,
      some (1, 1, 1, 1)⟩,
     ⟨Phase.mask, ⟨"coronal", "left", "???", DVal.num (-2)⟩, some maskGray⟩]
    [⟨Phase.normal, ⟨"sagittal", "midline", "brainstem", DVal.num 2⟩,
      some (1, 1, 1, 1)⟩]
    (by simp [figSample]) (by simp [figSample])
    ⟨Phase.normal, ⟨"coronal", "right", "amygdala", DVal.num 2⟩,
      some (1, 1, 1, 1)⟩
    ⟨Phase.normal, ⟨"sagittal", "midline", "brainstem", DVal.num 2⟩,
      some (1, 1, 1, 1)⟩
    (by simp) (by simp) rfl rfl rfl

/-! ### C7: mask overlay -/

/-- Indexing a successful `_plot_views` run: panel `i` renders view `i`'s
selection. -/
lemma plotViews_get (t : Table) (cmap : Cmap) (coloring : ColoringRes)
    (mr : Option String) :
    ∀ (views : List View) (panels : List (List DrawOp)),
      plotViews t cmap coloring mr views = Except.ok panels →
      ∀ (i : ℕ) (v : View) (p : List DrawOp),
        views[i]? = some v → panels[i]? = some p →
        ∃ sel, selectView t v = Except.ok sel ∧
          p = normalOps cmap coloring sel ++ maskOps t mr v
  | [], panels, hok, i, v, p, hv, hp => by
    simp at hv
  | w :: vs, panels, hok, i, v, p, hv, hp => by
    simp only [plotViews] at hok
    cases hsel : selectView t w with
    | error e =>
      rw [hsel, exceptBind_err] at hok
      exact absurd hok (by simp)
    | ok sel =>
      rw [hsel, exceptBind_ok] at hok
      cases hpan : renderPanel t cmap coloring mr w sel with
      | error e =>
        rw [hpan, exceptBind_err] at hok
        exact absurd hok (by simp)
      | ok panel =>
        rw [hpan, exceptBind_ok] at hok
        cases hrest : plotViews t cmap coloring mr vs with
        | error e =>
          rw [hrest, exceptBind_err] at hok
          exact absurd hok (by simp)
        | ok rest =>
          rw [hrest, exceptBind_ok] at hok
          have hok2 : Except.ok (panel :: rest) = Except.ok panels := hok
          injection hok2 with h
          subst h
          cases i with
          | zero =>
            simp only [List.getElem?_cons_zero, Option.some.injEq] at hv hp
            subst hv
            refine ⟨sel, hsel, ?_⟩
            rw [← hp]
            exact renderPanel_ok_inv t cmap coloring mr w sel _ hpan
          | succ n =>
            simp only [List.getElem?_cons_succ] at hv hp
            exact plotViews_get t cmap coloring mr vs rest hrest n v p hv hp

/-- A nonempty constant list has that constant as its last element. -/
lemma getLast?_all_eq {α : Type} (l : List α) (c : α) (hne : l ≠ [])
    (hall : ∀ x ∈ l, x = c) : l.getLast? = some c := by
  rw [List.getLast?_eq_getLast_of_ne_nil hne]
  exact congrArg some (hall _ (List.getLast_mem hne))

/-- C7: in a successful masked `_plot_multi` run, panel `i` overlays with
the fixed gray fill exactly the records whose `region` equals the mask
label and whose `side` equals the panel's side, with no hemi condition; the
overlay is drawn after the normal pass, so such a record's last visible
fill is the gray mask fill regardless of its data value. -/
theorem C7_mask_overlay (t : Table) (views : List View) (cmap : Cmap)
    (m : String) (vmin vmax : Option ℚ) (sc : Bool) (fig : Figure)
    (hok : plotMulti t views cmap (some m) vmin vmax sc = Except.ok fig)
    (hm : m ≠ "") (hreg : t.hasRegion = true)
    (i : ℕ) (v : View) (p : List DrawOp)
    (hv : views[i]? = some v) (hp : fig.panels[i]? = some p)
    (r : Record) (hr : r ∈ t.rows) (hside : r.side = v.side)
    (hrregion : r.region = m) :
    lastFillFor p r = some (some maskGray) ∧
    ∀ o ∈ p, o.phase = Phase.mask →
      o.row ∈ t.rows ∧ o.row.side = v.side ∧ o.row.region = m ∧
        o.fill = some maskGray := by
  obtain ⟨col, _, hpv⟩ :=
    plotMulti_ok_inv t views cmap (some m) vmin vmax sc fig hok
  obtain ⟨sel, _, hpeq⟩ := plotViews_get t cmap
    (prepareColoring cmap col vmin vmax) (some m) views fig.panels hpv i v p
    hv hp
  subst hpeq
  have hmsel : r ∈ maskSelect t v.side m := by
    unfold maskSelect
    rw [hreg]
    simp only [if_true, List.mem_filter]
    exact ⟨hr, by simp [hside, hrregion]⟩
  have hmops : maskOps t (some m) v
      = (maskSelect t v.side m).map
          fun r => ⟨Phase.mask, r, some maskGray⟩ := by
    simp only [maskOps, if_neg hm]
  constructor
  · unfold lastFillFor
    rw [List.filter_append, List.map_append]
    have hne : ((maskOps t (some m) v).filter
        (fun o => o.row = r)).map (fun o => o.fill) ≠ [] := by
      rw [hmops]
      have : (⟨Phase.mask, r, some maskGray⟩ : DrawOp)
          ∈ ((maskSelect t v.side m).map
              fun r => (⟨Phase.mask, r, some maskGray⟩ : DrawOp)).filter
                (fun o => o.row = r) := by
        rw [List.mem_filter]
        exact ⟨List.mem_map_of_mem _ hmsel, by simp⟩
      intro hnil
      rw [List.map_eq_nil_iff] at hnil
      rw [hnil] at this
      exact List.not_mem_nil _ this
    rw [List.getLast?_append_of_ne_nil _ hne]
    apply getLast?_all_eq _ _ hne
    intro x hx
    rcases List.mem_map.mp hx with ⟨o, ho, hxo⟩
    rw [List.mem_filter, hmops] at ho
    rcases List.mem_map.mp ho.1 with ⟨r2, _, hro⟩
    rw [← hxo, ← hro]
  · intro o ho hph
    rcases List.mem_append.mp ho with hn | hmask
    · exfalso
      unfold normalOps at hn
      rcases List.mem_map.mp hn with ⟨r2, _, hro⟩
      rw [← hro] at hph
      exact Phase.noConfusion hph
    · rw [hmops] at hmask
      rcases List.mem_map.mp hmask with ⟨r2, hr2, hro⟩
      have hr2sel := hr2
      unfold maskSelect at hr2sel
      rw [hreg] at hr2sel
      simp only [if_true, List.mem_filter] at hr2sel
      have hconds := hr2sel.2
      simp only [Bool.and_eq_true, beq_iff_eq] at hconds
      rw [← hro]
      exact ⟨hr2sel.1, hconds.1, hconds.2, rfl⟩
/-- Witness for C7: in the `plot_aseg` figure on the sample table, the
`'???'`-labeled coronal record (value -2) ends up gray. -/
theorem C7_mask_overlay_witness :
    lastFillFor
        [⟨Phase.normal, ⟨"coronal", "left", "???", DVal.num (-2)⟩,
          some (0, 0, 0, 1)⟩,
         ⟨Phase.normal, ⟨"coronal", "right", "amygdala", DVal.num 2⟩,
          some (1, 1, 1, 1)⟩,
         ⟨Phase.mask, ⟨"coronal", "left", "???", DVal.num (-2)⟩,
          some maskGray⟩]
        ⟨"coronal", "left", "???", DVal.num (-2)⟩
      = some (some maskGray) := by
  have hok : plotMulti sampleTable asegViews grayscale (some "???") none none
      true = Except.ok figSample := plot_aseg_sample_eval
  exact (C7_mask_overlay sampleTable asegViews grayscale "???" none none true
    figSample hok (by decide) rfl 0
    ⟨"coronal", HemiSpec.multi ["left", "right"]⟩ _ rfl rfl
    ⟨"coronal", "left", "???", DVal.num (-2)⟩
    (by simp [sampleTable, sampleRows]) rfl rfl).1

/-! ### C8: schema errors fail fast -/

/-- With a required column missing, `_plot_multi` on a nonempty view list
raises before rendering anything. -/
lemma plotMulti_err (t : Table) (v : View) (vs : List View) (cmap : Cmap)
    (mr : Option String) (vmin vmax : Option ℚ) (sc : Bool)
    (hmiss : t.hasDataCol = false ∨ t.hasSide = false ∨ t.hasHemi = false) :
    ∃ e, plotMulti t (v :: vs) cmap mr vmin vmax sc = Except.error e := by
  cases hdc : t.hasDataCol with
  | false =>
    refine ⟨"KeyError: value column", ?_⟩
    unfold plotMulti getCol
    rw [hdc]
    rfl
  | true =>
    have herr : ∀ e, selectView t v = Except.error e →
        plotMulti t (v :: vs) cmap mr vmin vmax sc = Except.error e := by
      intro e he
      unfold plotMulti getCol
      rw [hdc]
      simp only [if_true, exceptBind_ok, plotViews, he, exceptBind_err]
    rcases hmiss with h | h | h
    · rw [hdc] at h
      exact absurd h (by simp)
    · exact ⟨"KeyError: side", herr _ (selectView_err_side t v h)⟩
    · cases hs : t.hasSide with
      | false => exact ⟨"KeyError: side", herr _ (selectView_err_side t v hs)⟩
      | true => exact ⟨"KeyError: hemi", herr _ (selectView_err_hemi t v hs h)⟩

/-- C8: a table missing `side`, `hemi`, or the requested coloring column
makes every one of the three plotting calls fail with an error instead of
returning a figure; the `Except` result carries no partial output. -/
theorem C8_schema_error (t : Table) (side hemi m : String) (cmap : Cmap)
    (vmin vmax : Option ℚ) (sc : Bool)
    (hmiss : t.hasDataCol = false ∨ t.hasSide = false ∨ t.hasHemi = false) :
    (∃ e, plot_view t side hemi cmap vmin vmax sc = Except.error e) ∧
    (∃ e, plot_aseg t cmap m vmin vmax sc = Except.error e) ∧
    (∃ e, plot_surface t cmap vmin vmax sc = Except.error e) :=
  ⟨plotMulti_err t ⟨side, HemiSpec.scalar hemi⟩ [] cmap none vmin vmax sc
      hmiss,
   plotMulti_err t ⟨"coronal", HemiSpec.multi ["left", "right"]⟩
      [⟨"sagittal", HemiSpec.scalar "midline"⟩] cmap (some m) vmin vmax sc
      hmiss,
   plotMulti_err t ⟨"lateral", HemiSpec.scalar "left"⟩
      [⟨"lateral", HemiSpec.scalar "right"⟩,
       ⟨"medial", HemiSpec.scalar "left"⟩,
       ⟨"medial", HemiSpec.scalar "right"⟩] cmap none vmin vmax sc hmiss⟩
/-- Witness for C8 on the sample table stripped of its data column: all
three entry points error out. -/
theorem C8_schema_error_witness :
    (∃ e, plot_view noColTable "coronal" "left" grayscale none none false
        = Except.error e) ∧
    (∃ e, plot_aseg noColTable grayscale "???" none none false
        = Except.error e) ∧
    (∃ e, plot_surface noColTable grayscale none none false
        = Except.error e) :=
  C8_schema_error noColTable "coronal" "left" "???" grayscale none none
    false (Or.inl rfl)

/-! ### C9: unmapped categorical value aborts the figure (corrected) -/

/-- The categorical draw call can only raise matplotlib's NaN-color
error. -/
lemma renderNormal_err_inv (cmap : Cmap) (coloring : ColoringRes)
    (sel : List Record) (e : String)
    (h : renderNormal cmap coloring sel = Except.error e) :
    e = "ValueError: Invalid RGBA argument: nan" := by
  unfold renderNormal at h
  cases coloring with
  | numeric n => exact absurd h (by simp)
  | categorical tbl =>
    by_cases hall : (normalOps cmap (ColoringRes.categorical tbl) sel).all
        (fun o => o.fill.isSome)
    · rw [if_pos hall] at h
      exact absurd h (by simp)
    · rw [if_neg hall] at h
      injection h with h
      exact h.symm

/-- A failing panel render carries matplotlib's NaN-color error. -/
lemma renderPanel_err_inv (t : Table) (cmap : Cmap) (coloring : ColoringRes)
    (mr : Option String) (v : View) (sel : List Record) (e : String)
    (h : renderPanel t cmap coloring mr v sel = Except.error e) :
    e = "ValueError: Invalid RGBA argument: nan" := by
  unfold renderPanel at h
  cases hrn : renderNormal cmap coloring sel with
  | error e2 =>
    rw [hrn, exceptBind_err] at h
    have h2 : e2 = e := Except.error.inj h
    rw [← h2]
    exact renderNormal_err_inv cmap coloring sel e2 hrn
  | ok ops =>
    rw [hrn, exceptBind_ok] at h
    exact absurd h (by simp)

/-- A selection containing a record whose category misses the table makes
the categorical normal pass raise. -/
lemma renderNormal_categorical_err (cmap : Cmap)
    (tbl : List (String × RGBA)) (sel : List Record) (r : Record)
    (s : String) (hr : r ∈ sel) (hval : r.val = DVal.str s)
    (hlk : tbl.lookup s = none) :
    renderNormal cmap (ColoringRes.categorical tbl) sel
      = Except.error "ValueError: Invalid RGBA argument: nan" := by
  have hfill : coloringFill cmap (ColoringRes.categorical tbl) r.val
      = none := by
    rw [hval]
    simp [coloringFill, hlk]
  have hnall : ¬ ((normalOps cmap (ColoringRes.categorical tbl) sel).all
      (fun o => o.fill.isSome) = true) := by
    intro hall
    have hmem : (⟨Phase.normal, r,
        coloringFill cmap (ColoringRes.categorical tbl) r.val⟩ : DrawOp)
        ∈ normalOps cmap (ColoringRes.categorical tbl) sel := by
      unfold normalOps
      exact List.mem_map_of_mem _ hr
    have hop := List.all_eq_true.mp hall _ hmem
    simp [hfill] at hop
  unfold renderNormal
  rw [if_neg hnall]

/-- An unmapped category in any view's selection aborts the whole
`_plot_views` run with matplotlib's NaN-color error. -/
lemma plotViews_categorical_err (t : Table) (cmap : Cmap)
    (tbl : List (String × RGBA)) (mr : Option String)
    (hside : t.hasSide = true) (hhemi : t.hasHemi = true)
    (r : Record) (s : String) (hval : r.val = DVal.str s)
    (hlk : tbl.lookup s = none) :
    ∀ (views : List View) (v : View), v ∈ views → r ∈ selectViewPure t v →
      plotViews t cmap (ColoringRes.categorical tbl) mr views
        = Except.error "ValueError: Invalid RGBA argument: nan"
  | [], v, hv, _ => absurd hv (List.not_mem_nil v)
  | w :: vs, v, hv, hrsel => by
    simp only [plotViews, selectView_ok t w hside hhemi, exceptBind_ok]
    rcases List.mem_cons.mp hv with hvw | hvtail
    · subst hvw
      have herr := renderNormal_categorical_err cmap tbl
        (selectViewPure t v) r s hrsel hval hlk
      simp only [renderPanel, herr, exceptBind_err]
    · cases hpan : renderPanel t cmap (ColoringRes.categorical tbl) mr w
          (selectViewPure t w) with
      | error e =>
        rw [exceptBind_err,
          renderPanel_err_inv t cmap _ mr w _ e hpan]
      | ok panel =>
        rw [exceptBind_ok,
          plotViews_categorical_err t cmap tbl mr hside hhemi r s hval hlk
            vs v hvtail hrsel, exceptBind_err]

/-- C9 counterexample: on the categorical sample table with an empty
resolved table, the `'beta'` record is in the panel's subset and absent
from the table, yet the run does not complete with the record unfilled —
it aborts with matplotlib's `ValueError`, refuting the claim as stated. -/
theorem C9_unmapped_category_counterexample :
    (⟨"lateral", "left", "bankssts", DVal.str "beta"⟩ : Record)
      ∈ selectViewPure catTable ⟨"lateral", HemiSpec.scalar "left"⟩ ∧
    List.lookup "beta" ([] : List (String × RGBA)) = none ∧
    plotViews catTable grayscale (ColoringRes.categorical []) none
        [⟨"lateral", HemiSpec.scalar "left"⟩]
      = Except.error "ValueError: Invalid RGBA argument: nan" := by
  refine ⟨by simp [selectViewPure, catTable, List.filter], rfl, ?_⟩
  simp [plotViews, selectView, renderPanel, renderNormal, normalOps,
    maskOps, coloringFill, catTable, exceptBind_ok, exceptBind_err,
    List.filter, List.lookup]

/-- C9 (amended): a categorical value present in a panel's subset but
absent from the resolved category-to-color table receives a NaN color from
the `Series.map` lookup, and the figure call aborts with
`ValueError: Invalid RGBA argument: nan` — it is not rendered unfilled and
the rest of the figure does not complete. -/
theorem C9_unmapped_category (t : Table) (views : List View) (cmap : Cmap)
    (tbl : List (String × RGBA)) (mr : Option String)
    (hside : t.hasSide = true) (hhemi : t.hasHemi = true)
    (v : View) (hv : v ∈ views) (r : Record)
    (hrsel : r ∈ selectViewPure t v) (s : String)
    (hval : r.val = DVal.str s) (hlk : tbl.lookup s = none) :
    coloringFill cmap (ColoringRes.categorical tbl) r.val = none ∧
    plotViews t cmap (ColoringRes.categorical tbl) mr views
      = Except.error "ValueError: Invalid RGBA argument: nan" :=
  ⟨by rw [hval]; simp [coloringFill, hlk],
   plotViews_categorical_err t cmap tbl mr hside hhemi r s hval hlk views v
     hv hrsel⟩
/-- Witness for C9 (amended) on the categorical sample table with an empty
resolved table: the lookup yields NaN (`none`) and the run aborts with the
`ValueError` message. -/
theorem C9_unmapped_category_witness :
    coloringFill grayscale (ColoringRes.categorical []) (DVal.str "beta")
        = none ∧
    plotViews catTable grayscale (ColoringRes.categorical []) none
        [⟨"lateral", HemiSpec.scalar "left"⟩]
      = Except.error "ValueError: Invalid RGBA argument: nan" :=
  C9_unmapped_category catTable [⟨"lateral", HemiSpec.scalar "left"⟩]
    grayscale [] none rfl rfl ⟨"lateral", HemiSpec.scalar "left"⟩
    (List.mem_singleton.mpr rfl)
    ⟨"lateral", "left", "bankssts", DVal.str "beta"⟩
    (by simp [selectViewPure, catTable, List.filter]) "beta" rfl rfl

/-! ### C10: mask requested without a region column -/

/-- Without a `region` column the mask overlay draws nothing. -/
lemma maskOps_noRegion (t : Table) (hreg : t.hasRegion = false) :
    ∀ (mr : Option String) (v : View), maskOps t mr v = []
  | none, v => rfl
  | some m, v => by
    simp only [maskOps]
    by_cases hme : m = ""
    · rw [if_pos hme]
    · rw [if_neg hme]
      unfold maskSelect
      rw [hreg]
      simp

/-- Without a `region` column, a masked `_plot_views` run is identical to
the unmasked one. -/
lemma plotViews_mask_noop (t : Table) (cmap : Cmap) (m : String)
    (hreg : t.hasRegion = false) :
    ∀ (coloring : ColoringRes) (views : List View),
      plotViews t cmap coloring (some m) views
        = plotViews t cmap coloring none views
  | _, [] => rfl
  | coloring, v :: vs => by
    simp only [plotViews, renderPanel, maskOps_noRegion t hreg,
      plotViews_mask_noop t cmap m hreg coloring vs]

/-- Without a `region` column, a masked `_plot_multi` call is identical to
the unmasked one, errors included. -/
lemma plotMulti_mask_noop (t : Table) (views : List View) (cmap : Cmap)
    (m : String) (vmin vmax : Option ℚ) (sc : Bool)
    (hreg : t.hasRegion = false) :
    plotMulti t views cmap (some m) vmin vmax sc
      = plotMulti t views cmap none vmin vmax sc := by
  unfold plotMulti
  simp only [plotViews_mask_noop t cmap m hreg]

/-- C10: when the table has no `region` column, a masked `plot_aseg` call
does not raise on the mask's account: `gdf.get('region')` is `None`, the
mask filter matches no rows, and the call behaves exactly like the
unmasked call (a silent no-op); with intact schema and a numeric data
column it succeeds and every draw call belongs to the normal pass (no
overlay drawn). -/
theorem C10_missing_region_column (t : Table) (cmap : Cmap) (m : String)
    (vmin vmax : Option ℚ) (sc : Bool)
    (hreg : t.hasRegion = false) (hside : t.hasSide = true)
    (hhemi : t.hasHemi = true) (hcol : t.hasDataCol = true)
    (hnum : t.dtypeNumeric = true) :
    plot_aseg t cmap m vmin vmax sc
      = plotMulti t asegViews cmap none vmin vmax sc ∧
    ∃ fig, plot_aseg t cmap m vmin vmax sc = Except.ok fig ∧
      ∀ p ∈ fig.panels, ∀ o ∈ p, o.phase = Phase.normal := by
  refine ⟨plotMulti_mask_noop t asegViews cmap m vmin vmax sc hreg, ?_⟩
  refine ⟨_, plotMulti_panels t asegViews cmap (some m) vmin vmax sc hside
    hhemi hcol hnum, ?_⟩
  intro p hp o ho
  rcases List.mem_map.mp hp with ⟨v, _, hpeq⟩
  subst hpeq
  rw [maskOps_noRegion t hreg, List.append_nil] at ho
  unfold normalOps at ho
  rcases List.mem_map.mp ho with ⟨r, _, hro⟩
  rw [← hro]
/-- Witness for C10 on the sample table without a `region` column: the
masked `plot_aseg` call succeeds, and the `'???'`-labeled record keeps its
normal-pass fill. -/
theorem C10_missing_region_column_witness :
    plot_aseg noRegionTable grayscale "???" none none true
      = Except.ok figNoRegion ∧
    (⟨Phase.normal, ⟨"coronal", "left", "???", DVal.num (-2)⟩,
        some (0, 0, 0, 1)⟩ : DrawOp).phase = Phase.normal := by
  obtain ⟨hnoop, fig, hok, hall⟩ := C10_missing_region_column noRegionTable
    grayscale "???" none none true rfl rfl rfl rfl rfl
  have heval : plot_aseg noRegionTable grayscale "???" none none true
      = Except.ok figNoRegion := by
    simp [figNoRegion, plot_aseg, plotMulti, getCol, noRegionTable,
      sampleRows, plotViews, selectView, renderPanel, renderNormal,
      normalOps, prepareColoring, resolvedLow, resolvedHigh, dropna,
      numCells, listMin, listMax, mkNorm, maskOps, maskSelect, coloringFill,
      Norm.apply, grayscale, asegViews, exceptBind_ok, exceptBind_err,
      List.filter, List.lookup, maskGray]
    norm_num
  have hfig : fig = figNoRegion := by
    rw [heval] at hok
    injection hok with h
    exact h.symm
  subst hfig
  refine ⟨heval, ?_⟩
  exact hall figNoRegion.panels[0]
    (by simp [figNoRegion])
    ⟨Phase.normal, ⟨"coronal", "left", "???", DVal.num (-2)⟩,
      some (0, 0, 0, 1)⟩
    (by simp [figNoRegion])

end GgsegPy
